import Mathlib

/-!
Shallow embedding of the artifact-publication core of `cosmos/io.py`
(remote path resolution, destination-path construction, per-backend
artifact publishers, and the log `show`-array extractor), together with
theorems settling the specification claims about that code.

Python strings are modelled as Lean `String`s (operating on `String.data`
where character-level work is needed), Python `None`/falsy configuration
values as `Option`, raised exceptions as `Except` errors, and the
filesystem / object store as explicit inputs and outputs.
-/

namespace Cosmos

/-! ## Basic string helpers (models of the Python `str` methods used) -/

/-- Model of Python `s.rstrip("/")` on the character list: drop all trailing `'/'`. -/
def rstripSlashL (l : List Char) : List Char :=
  (l.reverse.dropWhile (fun c => c = '/')).reverse

/-- Model of Python `s.rstrip("/")`. -/
def rstripSlash (s : String) : String :=
  String.mk (rstripSlashL s.data)

/-- Model of Python `s.lstrip("/")` on the character list: drop all leading `'/'`. -/
def lstripSlashL (l : List Char) : List Char :=
  l.dropWhile (fun c => c = '/')

/-- Model of Python `s.lstrip("/")`. -/
def lstripSlash (s : String) : String :=
  String.mk (lstripSlashL s.data)

/-- If `pre` is a prefix of `l`, return the remainder, else `none`. -/
def dropPrefixL : List Char → List Char → Option (List Char)
  | [], rest => some rest
  | _ :: _, [] => none
  | a :: as, b :: bs => if a = b then dropPrefixL as bs else none

/-- Whether `needle` occurs as a contiguous substring of the haystack. -/
def containsSub (needle : List Char) : List Char → Bool
  | [] => needle.isEmpty
  | c :: rest => (dropPrefixL needle (c :: rest)).isSome || containsSub needle rest

/-- Model of Python `s.split(sep)` (non-empty `sep`), with fuel for termination;
`cur` carries the reversed current chunk. -/
def pySplitAux (sep : List Char) : Nat → List Char → List Char → List (List Char)
  | _, cur, [] => [cur.reverse]
  | 0, cur, l => [cur.reverse ++ l]
  | fuel + 1, cur, c :: rest =>
    match dropPrefixL sep (c :: rest) with
    | some after => cur.reverse :: pySplitAux sep fuel [] after
    | none => pySplitAux sep fuel (c :: cur) rest

/-- Model of Python `s.split(sep)` for a non-empty separator (the only way the
source uses it); an empty separator raises in Python and is mapped to `[l]`. -/
def pySplit (sep l : List Char) : List (List Char) :=
  if sep = [] then [l] else pySplitAux sep l.length [] l

/-- Model of Python `s.split(sep)[-1]` as used in the named-backend publishers
(`dirpath.split(project_dir)[-1]`). -/
def pySplitLast (s sep : String) : String :=
  String.mk ((pySplit sep.data s.data).getLastD [])

/-! ## Path splitting and joining on `'/'` -/

/-- Split a character list on `'/'` (every occurrence), like `"a/b".split("/")`.
Never returns `[]`; the empty list splits to `[[]]`. -/
def splitSlash : List Char → List (List Char)
  | [] => [[]]
  | c :: rest =>
    if c = '/' then [] :: splitSlash rest
    else
      match splitSlash rest with
      | [] => [[c]]
      | g :: gs => (c :: g) :: gs

/-- Join components with `'/'` (inverse of `splitSlash`). -/
def joinSlash : List (List Char) → List Char
  | [] => []
  | [p] => p
  | p :: q :: rest => p ++ '/' :: joinSlash (q :: rest)

/-- A path component that survives normalisation untouched: non-empty and
neither `.` nor `..`. -/
abbrev GoodPart (p : List Char) : Prop :=
  p ≠ [] ∧ p ≠ ['.'] ∧ p ≠ ['.', '.']

/-- A clean relative path: every `'/'`-separated component is a `GoodPart`
(so no leading/trailing/double slash and no `.`/`..` component), exactly the
shape `os.path.relpath` produces for a file strictly under a directory. -/
abbrev cleanRel (r : String) : Prop :=
  ∀ p ∈ splitSlash r.data, GoodPart p

/-- One step of path normalisation as performed by `posixpath.normpath` inside
`os.path.abspath`: drop empty and `.` components, let `..` pop the previous
component (popping at the root is a no-op, matching absolute paths). -/
def resolveStep (acc : List (List Char)) (p : List Char) : List (List Char) :=
  if p = [] ∨ p = ['.'] then acc
  else if p = ['.', '.'] then acc.dropLast
  else acc ++ [p]

/-- Normalise a component list (see `resolveStep`). -/
def resolveParts (ps : List (List Char)) : List (List Char) :=
  ps.foldl resolveStep []

/-- Length of the longest common prefix of two component lists. -/
def commonPrefixLen : List (List Char) → List (List Char) → Nat
  | a :: as, b :: bs => if a = b then commonPrefixLen as bs + 1 else 0
  | _, _ => 0

/-- Assemble the relative path from the normalised component lists of the path
(`p`) and the start directory (`st`): remove the common prefix and emit one
`..` per remaining `st` component; an empty result is `"."` (`os.curdir`). -/
def relFromParts (p st : List (List Char)) : String :=
  match List.replicate (st.length - commonPrefixLen p st) ['.', '.']
      ++ p.drop (commonPrefixLen p st) with
  | [] => "."
  | rel => String.mk (joinSlash rel)

/-- Model of Python `os.path.relpath(path, start)` for POSIX separators:
both arguments are normalised against a common (anonymous) working directory,
the common prefix is removed, and one `..` is emitted per remaining `start`
component.  Drive letters and symlinks are out of scope; this covers the two
call shapes in the source (a file under its source directory, and
`relpath(file, join(project_dir, os.pardir))`). -/
def os_path_relpath (path start : String) : String :=
  relFromParts (resolveParts (splitSlash path.data)) (resolveParts (splitSlash start.data))

/-- Model of `s.startsWith p`, computed on the character lists. -/
def strStartsWith (s p : String) : Bool :=
  (dropPrefixL p.data s.data).isSome

/-- Model of `s.endsWith p`, computed on the character lists. -/
def strEndsWith (s p : String) : Bool :=
  (dropPrefixL p.data.reverse s.data.reverse).isSome

/-- Model of Python `os.path.join(a, b)` for POSIX paths: an absolute `b`
replaces `a`, otherwise the parts are glued with exactly one `'/'`. -/
def osPathJoin (a b : String) : String :=
  if strStartsWith b "/" then b
  else if a = "" then b
  else if strEndsWith a "/" then a ++ b
  else a ++ "/" ++ b

/-- Model of `str(pathlib.Path(a) / b)`: an absolute `b` replaces `a`;
otherwise the trailing separators of `a` are dropped and the parts are glued
with one `'/'` (interior normalisation of `a` is not needed by the claims). -/
def pathlibJoin (a b : String) : String :=
  if strStartsWith b "/" then b
  else if a = "" then b
  else rstripSlash a ++ "/" ++ b

/-! ## Execution context and destination-path builder -/

/-- The run-identity fields the publishers read from the Airflow `context`
(`context['dag'].dag_id`, `context['run_id']`,
`context['task_instance'].task_id`, and the attempt counter
`try_number`; the Airflow-2 fallback `_try_number` read by some variants
denotes the same attempt number and is collapsed into one field). -/
structure ExecContext where
  dag_id : String
  run_id : String
  task_id : String
  try_number : Nat
deriving DecidableEq, Repr

/-- Embedding of `_construct_dest_file_path` (`cosmos/io.py`): the remote root
with trailing `/` stripped, then `dag_id/run_id/task_id/try_number`, then the
source subpath, then the file path relative to the source directory
(left-stripped of `/`). -/
def _construct_dest_file_path (dest_target_dir : String) (file_path : String)
    (source_target_dir : String) (source_subpath : String) (ctx : ExecContext) : String :=
  let dest_target_dir_str := rstripSlash dest_target_dir
  let task_run_identifier :=
    ctx.dag_id ++ "/" ++ ctx.run_id ++ "/" ++ ctx.task_id ++ "/" ++ toString ctx.try_number
  let rel_path := lstripSlash (os_path_relpath file_path source_target_dir)
  dest_target_dir_str ++ "/" ++ task_run_identifier ++ "/" ++ source_subpath ++ "/" ++ rel_path

/-! ## Helper lemmas about splitting, joining and normalising paths -/

theorem splitSlash_ne_nil (l : List Char) : splitSlash l ≠ [] := by
  cases l with
  | nil => simp [splitSlash]
  | cons c rest =>
    simp only [splitSlash]
    split
    · simp
    · split <;> simp

theorem splitSlash_append (a b : List Char) :
    splitSlash (a ++ '/' :: b) = splitSlash a ++ splitSlash b := by
  induction a with
  | nil => simp [splitSlash]
  | cons c a ih =>
    by_cases hc : c = '/'
    · subst hc
      show splitSlash ('/' :: (a ++ '/' :: b)) = splitSlash ('/' :: a) ++ splitSlash b
      simp [splitSlash, ih]
    · cases h : splitSlash a with
      | nil => exact absurd h (splitSlash_ne_nil a)
      | cons g gs =>
        show splitSlash (c :: (a ++ '/' :: b)) = splitSlash (c :: a) ++ splitSlash b
        simp only [splitSlash, if_neg hc, ih, h, List.cons_append]

theorem joinSlash_splitSlash (l : List Char) : joinSlash (splitSlash l) = l := by
  induction l with
  | nil => simp [splitSlash, joinSlash]
  | cons c rest ih =>
    simp only [splitSlash]
    split
    · cases h : splitSlash rest with
      | nil => exact absurd h (splitSlash_ne_nil rest)
      | cons g gs =>
        rw [h] at ih
        simp only [joinSlash, List.nil_append]
        subst ih
        rename_i hc
        subst hc
        rfl
    · cases h : splitSlash rest with
      | nil => exact absurd h (splitSlash_ne_nil rest)
      | cons g gs =>
        rw [h] at ih
        cases gs with
        | nil => simp only [joinSlash] at ih ⊢; rw [ih]
        | cons q qs =>
          simp only [joinSlash, List.cons_append] at ih ⊢
          rw [ih]

theorem resolveStep_good (acc : List (List Char)) (p : List Char) (h : GoodPart p) :
    resolveStep acc p = acc ++ [p] := by
  obtain ⟨h1, h2, h3⟩ := h
  simp [resolveStep, h1, h2, h3]

theorem foldl_resolveStep_clean (B : List (List Char)) (hB : ∀ p ∈ B, GoodPart p) :
    ∀ acc, List.foldl resolveStep acc B = acc ++ B := by
  induction B with
  | nil => simp
  | cons p B ih =>
    intro acc
    rw [List.foldl_cons, resolveStep_good acc p (hB p (by simp)),
      ih (fun q hq => hB q (by simp [hq]))]
    simp

theorem commonPrefixLen_self_append (A B : List (List Char)) :
    commonPrefixLen (A ++ B) A = A.length := by
  induction A with
  | nil => cases B <;> simp [commonPrefixLen]
  | cons a as ih => simp [commonPrefixLen, ih]

theorem relFromParts_append (A S : List (List Char)) (hS : S ≠ []) :
    relFromParts (A ++ S) A = String.mk (joinSlash S) := by
  unfold relFromParts
  cases S with
  | nil => exact absurd rfl hS
  | cons g gs =>
    rw [commonPrefixLen_self_append]
    simp only [Nat.sub_self, List.replicate_zero, List.nil_append, List.drop_left]

theorem relpath_append (dir rel : String) (h : cleanRel rel) :
    os_path_relpath (dir ++ "/" ++ rel) dir = rel := by
  have hdata : (dir ++ "/" ++ rel).data = dir.data ++ '/' :: rel.data := by
    rw [String.data_append, String.data_append, List.append_assoc]
    rfl
  unfold os_path_relpath
  rw [hdata, splitSlash_append]
  rw [show resolveParts (splitSlash dir.data ++ splitSlash rel.data)
      = resolveParts (splitSlash dir.data) ++ splitSlash rel.data by
    unfold resolveParts
    rw [List.foldl_append, foldl_resolveStep_clean (splitSlash rel.data) h]]
  rw [relFromParts_append _ _ (splitSlash_ne_nil rel.data)]
  rw [joinSlash_splitSlash]


theorem lstrip_clean (rel : String) (h : cleanRel rel) : lstripSlash rel = rel := by
  unfold lstripSlash lstripSlashL
  cases hd : rel.data with
  | nil => rw [List.dropWhile_nil, ← hd]
  | cons c t =>
    have hc : ¬ c = '/' := by
      intro hc
      subst hc
      have : ([] : List Char) ∈ splitSlash rel.data := by
        rw [hd]
        simp [splitSlash]
      exact (h [] this).1 rfl
    rw [List.dropWhile_cons, if_neg (by simpa using hc), ← hd]

/-! ## C1: structure of the destination path -/

/-- Claim C1: for every remote root, execution context, source subpath, and file
path under the source directory (a clean relative path `rel` below directory
`dir`), `_construct_dest_file_path` returns exactly the root with trailing `/`
stripped, then `/`, then `dag_id`, `run_id`, `task_id`, `try_number`, the
source subpath and the relative path, joined by `/` in that fixed order. -/
theorem dest_file_path_structure (root subpath dir rel : String) (ctx : ExecContext)
    (h : cleanRel rel) :
    _construct_dest_file_path root (dir ++ "/" ++ rel) dir subpath ctx =
      rstripSlash root ++ "/"
        ++ (ctx.dag_id ++ "/" ++ ctx.run_id ++ "/" ++ ctx.task_id ++ "/" ++ toString ctx.try_number)
        ++ "/" ++ subpath ++ "/" ++ rel := by
  unfold _construct_dest_file_path
  rw [relpath_append dir rel h, lstrip_clean rel h]

/-- Witness for C1, at the spec's own end-to-end example: root
`store://bucket`, context `(d1, r1, t1, 2)`, subpath `target`, file
`p/target/run/results.json`. -/
theorem dest_file_path_structure_witness :
    cleanRel "run/results.json" ∧
      _construct_dest_file_path "store://bucket" ("p/target" ++ "/" ++ "run/results.json")
          "p/target" "target" ⟨"d1", "r1", "t1", 2⟩ =
        rstripSlash "store://bucket" ++ "/"
          ++ ("d1" ++ "/" ++ "r1" ++ "/" ++ "t1" ++ "/" ++ toString (2 : Nat))
          ++ "/" ++ "target" ++ "/" ++ "run/results.json" :=
  ⟨by decide, dest_file_path_structure "store://bucket" "target" "p/target" "run/results.json"
    ⟨"d1", "r1", "t1", 2⟩ (by decide)⟩

/-! ## Remote-target resolver (`_configure_remote_target_path`) -/

/-- Error taxonomy for the publication core.  The source raises
`CosmosValueError` in both cases with distinct messages; the two constructors
follow the spec's names: `capabilityUnavailable` is the "Object Storage
feature is unavailable in Airflow version ..." raise inside
`_configure_remote_target_path`, `notConfigured` is the "remote target path is
not configured" raise inside `upload_to_cloud_storage`. -/
inductive CosmosError where
  | notConfigured
  | capabilityUnavailable
deriving DecidableEq, Repr

/-- The process-wide configuration read by the resolver.  `cosmos.settings` is
not part of the reviewed sources, so its three consulted values are inputs
here; an unset or empty (Python-falsy) value is `none`. -/
structure Settings where
  remote_target_path : Option String
  remote_target_path_conn_id : Option String
  airflow_io_available : Bool
deriving DecidableEq, Repr

/-- Whether a character may appear in a URI scheme (`urllib.parse`). -/
def isSchemeChar (c : Char) : Bool :=
  c.isAlpha || c.isDigit || c = '+' || c = '-' || c = '.'

/-- Model of `urllib.parse.urlparse(url).scheme`: the part before the first
`':'`, lower-cased, provided it starts with a letter and contains only scheme
characters; otherwise the empty string. -/
def urlScheme (url : String) : String :=
  let before := url.data.takeWhile (fun c => c ≠ ':')
  if before.length = url.data.length then ""
  else
    match before with
    | [] => ""
    | c :: rest =>
      if c.isAlpha && (c :: rest).all isSchemeChar then
        String.mk ((c :: rest).map Char.toLower)
      else ""

/-- Modelled from the spec: `FILE_SCHEME_AIRFLOW_DEFAULT_CONN_ID_MAP` is
imported from `cosmos.constants`, which is not among the reviewed sources; the
spec gives the fixed scheme-to-connection-id table
`s3 -> aws_default`, `gs -> google_cloud_default`, `abfs -> wasb_default`. -/
def FILE_SCHEME_AIRFLOW_DEFAULT_CONN_ID_MAP : List (String × String) :=
  [("s3", "aws_default"), ("gs", "google_cloud_default"), ("abfs", "wasb_default")]

/-- Model of `FILE_SCHEME_AIRFLOW_DEFAULT_CONN_ID_MAP.get(scheme, None)`. -/
def lookupScheme (scheme : String) : Option String :=
  (FILE_SCHEME_AIRFLOW_DEFAULT_CONN_ID_MAP.find? (fun kv => kv.1 == scheme)).map
    (fun kv => kv.2)

/-- The connection id the resolver settles on for a configured root: the
explicit `remote_target_path_conn_id` if set, else the scheme-table entry for
the root's URI scheme. -/
def resolvedConnId (s : Settings) (target_path_str : String) : Option String :=
  match s.remote_target_path_conn_id with
  | some c => some c
  | none => lookupScheme (urlScheme target_path_str)

/-- Embedding of `_configure_remote_target_path` (`cosmos/io.py`).  Returns
the pair the Python function returns (`(None, None)` in the two skip cases),
or the `CosmosValueError` it raises when the object-storage capability is
unavailable.  The `ObjectStoragePath` construction and the idempotent
ensure-directory side effect (`exists`/`mkdir`) act on the external store and
are not part of the returned value, matching the source's return statement
(`str()` of the configured `ObjectStoragePath` is its URL, i.e. the
configured root string). -/
def _configure_remote_target_path (s : Settings) :
    Except CosmosError (Option String × Option String) :=
  match s.remote_target_path with
  | none => Except.ok (none, none)
  | some target_path_str =>
    match resolvedConnId s target_path_str with
    | none => Except.ok (none, none)
    | some remote_conn_id =>
      if s.airflow_io_available then Except.ok (some target_path_str, some remote_conn_id)
      else Except.error CosmosError.capabilityUnavailable

/-! ## C7, C8, C10: resolver behaviour -/

/-- Claim C7: the resolver returns `(absent, absent)` without raising in both
skip cases: no remote root configured, or a root whose URI scheme is not in
the scheme table and no explicit connection id. -/
theorem resolver_skip_cases (s : Settings) :
    (s.remote_target_path = none →
      _configure_remote_target_path s = Except.ok (none, none)) ∧
    (∀ root, s.remote_target_path = some root →
      s.remote_target_path_conn_id = none →
      lookupScheme (urlScheme root) = none →
      _configure_remote_target_path s = Except.ok (none, none)) := by
  constructor
  · intro h
    simp [_configure_remote_target_path, h]
  · intro root hroot hconn hscheme
    have hres : resolvedConnId s root = none := by
      unfold resolvedConnId
      rw [hconn, hscheme]
    simp [_configure_remote_target_path, hroot, hres]

/-- Witness for C7: a configured root with an unknown scheme and no explicit
connection id resolves to `(absent, absent)` even with the capability flag
down, so no error is raised. -/
theorem resolver_skip_cases_witness :
    _configure_remote_target_path ⟨some "weird://x", none, false⟩ =
      Except.ok (none, none) :=
  (resolver_skip_cases ⟨some "weird://x", none, false⟩).2 "weird://x" rfl rfl (by decide)

/-- Claim C8: the resolver raises `CapabilityUnavailable` exactly when the
object-storage capability flag is down and resolution proceeds past the skip
cases (a root is configured and a connection id is resolved, explicitly or via
the scheme table); in the skip cases it never raises. -/
theorem resolver_capability_error_iff (s : Settings) :
    _configure_remote_target_path s = Except.error CosmosError.capabilityUnavailable ↔
      (s.airflow_io_available = false ∧
        ∃ root, s.remote_target_path = some root ∧ (resolvedConnId s root).isSome = true) := by
  unfold _configure_remote_target_path
  cases hroot : s.remote_target_path with
  | none => simp [hroot]
  | some root =>
    cases hconn : resolvedConnId s root with
    | none => simp [hroot, hconn]
    | some c =>
      cases hio : s.airflow_io_available <;> simp [hroot, hconn, hio]

/-- Claim C10: the resolver's result is all-or-nothing: any non-error result has
a root exactly when it has a connection id. -/
theorem resolver_all_or_nothing (s : Settings) (a b : Option String)
    (h : _configure_remote_target_path s = Except.ok (a, b)) :
    a.isSome = b.isSome := by
  unfold _configure_remote_target_path at h
  cases hroot : s.remote_target_path with
  | none =>
    rw [hroot] at h
    cases h
    rfl
  | some root =>
    rw [hroot] at h
    simp only at h
    cases hconn : resolvedConnId s root with
    | none =>
      rw [hconn] at h
      cases h
      rfl
    | some c =>
      rw [hconn] at h
      cases hio : s.airflow_io_available <;> rw [hio] at h <;> simp at h
      obtain ⟨ha, hb⟩ := h
      rw [← ha, ← hb]
      rfl

/-- Witness for C10: a fully configured resolution returns both a root and a
connection id. -/
theorem resolver_all_or_nothing_witness :
    (some "s3://bucket" : Option String).isSome = (some "aws_default" : Option String).isSome :=
  resolver_all_or_nothing ⟨some "s3://bucket", none, true⟩ (some "s3://bucket")
    (some "aws_default") rfl

/-! ## Generic object-storage publisher (`upload_to_cloud_storage`) -/

/-- One entry of the recursive listing `source_target_dir.rglob("*")`:
its path relative to `source_target_dir` and whether `file.is_file()`. -/
structure FSEntry where
  rel : String
  isFile : Bool
deriving DecidableEq, Repr

/-- One `ObjectStoragePath(file_path).copy(ObjectStoragePath(dest, conn_id))`
call issued by the generic publisher: local source path, destination key, and
the connection id the destination path is constructed with. -/
structure CloudUpload where
  src : String
  dest : String
  conn : Option String
deriving DecidableEq, Repr

/-- Embedding of `upload_to_cloud_storage` (`cosmos/io.py`).  `tree` is the
recursive listing of `project_dir / source_subpath` produced by `rglob("*")`
(in filesystem order).  The result is the list of uploads issued, paired with
the raised `CosmosValueError` if any; a raise happens before any upload. -/
def upload_to_cloud_storage (s : Settings) (project_dir : String) (source_subpath : String)
    (ctx : ExecContext) (tree : List FSEntry) : List CloudUpload × Option CosmosError :=
  match _configure_remote_target_path s with
  | Except.error e => ([], some e)
  | Except.ok (dest_target_dir, dest_conn_id) =>
    match dest_target_dir with
    | none => ([], some CosmosError.notConfigured)
    | some root =>
      let source_target_dir := pathlibJoin project_dir source_subpath
      let files := (tree.filter (fun e => e.isFile)).map
        (fun e => source_target_dir ++ "/" ++ e.rel)
      (files.map (fun fp =>
        { src := fp
          dest := _construct_dest_file_path root fp source_target_dir source_subpath ctx
          conn := dest_conn_id }), none)

/-! ## C6: explicit publication with no configured target raises -/

/-- Claim C6: whenever the resolver yields no configured destination root, the
generic publisher raises `NotConfigured` (the `CosmosValueError` at its top)
having uploaded nothing. -/
theorem cloud_storage_not_configured (s : Settings) (pd sp : String) (ctx : ExecContext)
    (tree : List FSEntry) (c : Option String)
    (h : _configure_remote_target_path s = Except.ok (none, c)) :
    upload_to_cloud_storage s pd sp ctx tree = ([], some CosmosError.notConfigured) := by
  unfold upload_to_cloud_storage
  rw [h]

/-- Witness for C6: with no remote root configured the publisher raises
`NotConfigured` and issues no uploads. -/
theorem cloud_storage_not_configured_witness :
    upload_to_cloud_storage ⟨none, none, true⟩ "p" "target" ⟨"d1", "r1", "t1", 2⟩
        [⟨"run/results.json", true⟩] = ([], some CosmosError.notConfigured) :=
  cloud_storage_not_configured ⟨none, none, true⟩ "p" "target" ⟨"d1", "r1", "t1", 2⟩
    [⟨"run/results.json", true⟩] none rfl

/-! ## C3: the set of uploaded objects is exactly the file set -/

/-- Claim C3: after a successful run of the generic publisher, the set of
destination keys written is exactly the set of regular files of the tree
(directories skipped) mapped through the destination-path function — nothing
extra, nothing skipped — and the key set is invariant under any permutation of
the traversal order. -/
theorem cloud_storage_uploads_exact_set (s : Settings) (pd sp : String) (ctx : ExecContext)
    (root : String) (conn : Option String)
    (hres : _configure_remote_target_path s = Except.ok (some root, conn)) :
    ∀ tree : List FSEntry,
      (upload_to_cloud_storage s pd sp ctx tree).2 = none ∧
      (∀ key, (∃ u ∈ (upload_to_cloud_storage s pd sp ctx tree).1, u.dest = key) ↔
        (∃ e ∈ tree, e.isFile = true ∧
          key = _construct_dest_file_path root (pathlibJoin pd sp ++ "/" ++ e.rel)
            (pathlibJoin pd sp) sp ctx)) ∧
      (∀ tree' : List FSEntry, tree.Perm tree' →
        ∀ key, (∃ u ∈ (upload_to_cloud_storage s pd sp ctx tree').1, u.dest = key) ↔
          (∃ u ∈ (upload_to_cloud_storage s pd sp ctx tree).1, u.dest = key)) := by
  have main : ∀ tree : List FSEntry, ∀ key,
      (∃ u ∈ (upload_to_cloud_storage s pd sp ctx tree).1, u.dest = key) ↔
        (∃ e ∈ tree, e.isFile = true ∧
          key = _construct_dest_file_path root (pathlibJoin pd sp ++ "/" ++ e.rel)
            (pathlibJoin pd sp) sp ctx) := by
    intro tree key
    unfold upload_to_cloud_storage
    rw [hres]
    simp only [List.mem_map, List.mem_filter]
    constructor
    · rintro ⟨u, ⟨fp, ⟨e, ⟨he, hf⟩, rfl⟩, rfl⟩, rfl⟩
      exact ⟨e, he, hf, rfl⟩
    · rintro ⟨e, he, hf, rfl⟩
      exact ⟨_, ⟨_, ⟨e, ⟨he, hf⟩, rfl⟩, rfl⟩, rfl⟩
  intro tree
  refine ⟨?_, main tree, ?_⟩
  · unfold upload_to_cloud_storage
    rw [hres]
  · intro tree' hperm key
    rw [main tree, main tree']
    constructor
    · rintro ⟨e, he, h⟩
      exact ⟨e, hperm.symm.subset he, h⟩
    · rintro ⟨e, he, h⟩
      exact ⟨e, hperm.subset he, h⟩

/-- Witness for C3: with root `s3://bucket` resolved through the scheme table,
publishing a tree holding one file and one directory writes exactly the
expected key. -/
theorem cloud_storage_uploads_exact_set_witness :
    ∃ u ∈ (upload_to_cloud_storage ⟨some "s3://bucket", none, true⟩ "p" "target"
        ⟨"d1", "r1", "t1", 2⟩ [⟨"run/results.json", true⟩, ⟨"run", false⟩]).1,
      u.dest = _construct_dest_file_path "s3://bucket" (pathlibJoin "p" "target" ++ "/" ++ "run/results.json")
        (pathlibJoin "p" "target") "target" ⟨"d1", "r1", "t1", 2⟩ := by
  have h := (cloud_storage_uploads_exact_set ⟨some "s3://bucket", none, true⟩ "p" "target"
    ⟨"d1", "r1", "t1", 2⟩ "s3://bucket" (some "aws_default") rfl
    [⟨"run/results.json", true⟩, ⟨"run", false⟩]).2.1
  exact (h _).mpr ⟨⟨"run/results.json", true⟩, by simp, rfl, rfl⟩

/-! ## Remote object store and idempotence of republication -/

/-- The remote object store as a map from destination key to stored content
(the local source path stands in for the bytes). -/
def Store := String → Option String

/-- One upload with the replace/overwrite semantics of the spec's backend
capability interface (`upload_file(local_path, destination_key,
overwrite=true)`; the S3 variant passes `replace=True`, the WASB variant
`overwrite=True`): the object at the key is replaced, everything else kept. -/
def updateStore (st : Store) (key v : String) : Store :=
  fun x => if x = key then some v else st x

/-- Run a list of uploads against a store, in order. -/
def applyUploads (st : Store) (us : List CloudUpload) : Store :=
  us.foldl (fun acc u => updateStore acc u.dest u.src) st

theorem applyUploads_eval (us : List CloudUpload) : ∀ (st : Store) (k : String),
    applyUploads st us k =
      match us.reverse.find? (fun u => u.dest == k) with
      | some u => some u.src
      | none => st k := by
  induction us with
  | nil => intro st k; rfl
  | cons u us ih =>
    intro st k
    have step : applyUploads st (u :: us) = applyUploads (updateStore st u.dest u.src) us := rfl
    rw [step, ih]
    rw [List.reverse_cons, List.find?_append]
    cases hfind : us.reverse.find? (fun v => v.dest == k) with
    | some v => rfl
    | none =>
      simp only [Option.none_or]
      unfold updateStore
      by_cases hk : u.dest == k
      · have : k = u.dest := (beq_iff_eq.mp hk).symm
        simp [List.find?, hk, this]
      · have : ¬ k = u.dest := fun h => hk (beq_iff_eq.mpr h.symm)
        simp [List.find?, hk, this]

theorem applyUploads_idem (us : List CloudUpload) (st : Store) (k : String) :
    applyUploads (applyUploads st us) us k = applyUploads st us k := by
  rw [applyUploads_eval, applyUploads_eval]
  cases hfind : us.reverse.find? (fun u => u.dest == k) with
  | some v => rfl
  | none => rfl

/-! ## Named-backend publishers (`upload_to_aws_s3`, `upload_to_gcp_gs`,
`upload_to_azure_wasb`) -/

/-- One `(dirpath, filenames)` pair yielded by `os.walk(target_dir)`
(the unused `dirnames` component is omitted). -/
structure WalkDir where
  dirpath : String
  filenames : List String
deriving DecidableEq, Repr

/-- One `S3Hook.load_file(filename, bucket_name, key, replace=True)` call. -/
structure S3Upload where
  filename : String
  key : String
  replace : Bool
deriving DecidableEq, Repr

/-- One `GCSHook.upload(bucket_name, object_name, filename)` call. -/
structure GcsUpload where
  filename : String
  object_name : String
deriving DecidableEq, Repr

/-- One `WasbHook.load_file(file_path, container_name, blob_name,
overwrite=True)` call. -/
structure WasbUpload where
  file_path : String
  blob_name : String
  overwrite : Bool
deriving DecidableEq, Repr

/-- Embedding of `upload_to_aws_s3` (`cosmos/io.py`): for every file of the
walk of `project_dir/source_subpath`, issue a replacing upload whose key is
`{dag_id}/{run_id}/{task_id}/{try_number}{dirpath.split(project_dir)[-1]}/{filename}`.
The walk of the target directory is the `walk` argument; `source_subpath` only
determines which directory was walked. -/
def upload_to_aws_s3 (project_dir : String) (source_subpath : String) (ctx : ExecContext)
    (walk : List WalkDir) : List S3Upload :=
  walk.flatMap (fun wd => wd.filenames.map (fun filename =>
    { filename := wd.dirpath ++ "/" ++ filename
      key := ctx.dag_id ++ "/" ++ ctx.run_id ++ "/" ++ ctx.task_id ++ "/"
          ++ toString ctx.try_number ++ pySplitLast wd.dirpath project_dir
          ++ "/" ++ filename
      replace := true }))

/-- Embedding of `upload_to_gcp_gs` (`cosmos/io.py`): for every file of the
walk of `os.path.join(project_dir, source_subpath)`, upload it under
`os.path.relpath(file_path, os.path.join(project_dir, os.pardir))` — the path
relative to the *parent* of the project directory.  The function receives the
execution context in `kwargs` but never reads it (the `ctx` parameter is
correspondingly unused). -/
def upload_to_gcp_gs (project_dir : String) (source_subpath : String) (ctx : ExecContext)
    (walk : List WalkDir) : List GcsUpload :=
  walk.flatMap (fun wd => wd.filenames.map (fun file =>
    { filename := osPathJoin wd.dirpath file
      object_name := os_path_relpath (osPathJoin wd.dirpath file)
        (osPathJoin project_dir "..") }))

/-- Embedding of `upload_to_azure_wasb` (`cosmos/io.py`): same traversal and
key layout as the S3 variant (the attempt counter is read from the Airflow-2
field `_try_number`, collapsed into `ctx.try_number` here), with
`overwrite=True`. -/
def upload_to_azure_wasb (project_dir : String) (source_subpath : String) (ctx : ExecContext)
    (walk : List WalkDir) : List WasbUpload :=
  walk.flatMap (fun wd => wd.filenames.map (fun filename =>
    { file_path := wd.dirpath ++ "/" ++ filename
      blob_name := ctx.dag_id ++ "/" ++ ctx.run_id ++ "/" ++ ctx.task_id ++ "/"
          ++ toString ctx.try_number ++ pySplitLast wd.dirpath project_dir
          ++ "/" ++ filename
      overwrite := true }))

/-! ## C2: which named backends put the execution context into the key -/

/-- Counterexample for C2: the claim "for each of the three named-backend
variants ... the destination key contains the caller's execution-context
fields as path components prefixing the file's location" is false for the GCP
GS variant: for project dir `p`, subpath `target`, context `(d1, r1, t1, 2)`
and the walk entry `p/target/run` with file `results.json`, the object name is
`p/target/run/results.json`, which does not contain the dag id `d1` at all. -/
theorem gcp_key_lacks_context :
    (upload_to_gcp_gs "p" "target" ⟨"d1", "r1", "t1", 2⟩
        [⟨"p/target/run", ["results.json"]⟩]).map (fun u => u.object_name) =
      ["p/target/run/results.json"] ∧
    containsSub "d1".data "p/target/run/results.json".data = false := by
  exact ⟨by decide, by decide⟩

/-- Claim C2 as amended: for the AWS S3 and Azure WASB variants, every issued
destination key is prefixed by the execution-context fields
`dag_id/run_id/task_id/try_number`; the GCP GS variant's object name is the
file path relative to the parent of the project directory and is independent
of the execution context. -/
theorem named_backend_key_prefixes (pd sp : String) (ctx : ExecContext) (walk : List WalkDir) :
    (∀ u ∈ upload_to_aws_s3 pd sp ctx walk, ∃ rest,
      u.key = ctx.dag_id ++ "/" ++ ctx.run_id ++ "/" ++ ctx.task_id ++ "/"
        ++ toString ctx.try_number ++ rest) ∧
    (∀ u ∈ upload_to_azure_wasb pd sp ctx walk, ∃ rest,
      u.blob_name = ctx.dag_id ++ "/" ++ ctx.run_id ++ "/" ++ ctx.task_id ++ "/"
        ++ toString ctx.try_number ++ rest) ∧
    (∀ ctx' : ExecContext, upload_to_gcp_gs pd sp ctx walk = upload_to_gcp_gs pd sp ctx' walk) := by
  refine ⟨?_, ?_, fun ctx' => rfl⟩
  · intro u hu
    unfold upload_to_aws_s3 at hu
    simp only [List.mem_flatMap, List.mem_map] at hu
    obtain ⟨wd, _, filename, _, rfl⟩ := hu
    exact ⟨pySplitLast wd.dirpath pd ++ "/" ++ filename, by simp [String.append_assoc]⟩
  · intro u hu
    unfold upload_to_azure_wasb at hu
    simp only [List.mem_flatMap, List.mem_map] at hu
    obtain ⟨wd, _, filename, _, rfl⟩ := hu
    exact ⟨pySplitLast wd.dirpath pd ++ "/" ++ filename, by simp [String.append_assoc]⟩

/-- Witness for C2 (amended), at the S3 variant: the key for
`p/target/run/results.json` under context `(d1, r1, t1, 2)` carries the
context prefix. -/
theorem named_backend_key_prefixes_witness :
    ∃ rest, (⟨"p/target/run/results.json", "d1/r1/t1/2/target/run/results.json", true⟩ : S3Upload).key
      = "d1" ++ "/" ++ "r1" ++ "/" ++ "t1" ++ "/" ++ toString (2 : Nat) ++ rest :=
  (named_backend_key_prefixes "p" "target" ⟨"d1", "r1", "t1", 2⟩
    [⟨"p/target/run", ["results.json"]⟩]).1
    ⟨"p/target/run/results.json", "d1/r1/t1/2/target/run/results.json", true⟩ (by decide)

/-! ## C9: replace semantics and idempotent republication -/

/-- Claim C9: every S3 upload is issued with `replace=True`, and republishing
the same local tree with the same execution context through the generic
publisher leaves the remote store with exactly the same objects as publishing
once: applying the upload list twice equals applying it once, at every key. -/
theorem publish_idempotent :
    (∀ (pd sp : String) (ctx : ExecContext) (walk : List WalkDir),
      ∀ u ∈ upload_to_aws_s3 pd sp ctx walk, u.replace = true) ∧
    (∀ (s : Settings) (pd sp : String) (ctx : ExecContext) (tree : List FSEntry)
        (st : Store) (k : String),
      applyUploads (applyUploads st (upload_to_cloud_storage s pd sp ctx tree).1)
          (upload_to_cloud_storage s pd sp ctx tree).1 k
        = applyUploads st (upload_to_cloud_storage s pd sp ctx tree).1 k) := by
  constructor
  · intro pd sp ctx walk u hu
    unfold upload_to_aws_s3 at hu
    simp only [List.mem_flatMap, List.mem_map] at hu
    obtain ⟨wd, _, filename, _, rfl⟩ := hu
    rfl
  · intro s pd sp ctx tree st k
    exact applyUploads_idem _ st k

/-- Witness for C9: the single S3 upload of a one-file walk is issued with
`replace=True`. -/
theorem publish_idempotent_witness :
    (⟨"p/target/run/results.json", "d1/r1/t1/2/target/run/results.json", true⟩ : S3Upload).replace
      = true :=
  publish_idempotent.1 "p" "target" ⟨"d1", "r1", "t1", 2⟩ [⟨"p/target/run", ["results.json"]⟩]
    ⟨"p/target/run/results.json", "d1/r1/t1/2/target/run/results.json", true⟩ (by decide)

/-! ## Log `show`-array extractor (`_extract_show_list`) -/

/-- Characters matched by the regex class `\s` (ASCII range, which is all the
log text exercises). -/
def isRegexSpace (c : Char) : Bool :=
  c = ' ' || c = '\t' || c = '\n' || c = '\r' || c = '\x0b' || c = '\x0c'

/-- Attempt the pattern `"show"\s*:\s*(\[[^\]]*\])` at the head of the list;
on success return the captured group (the bracketed fragment, which because
`[^\]]*` cannot cross a `]` always ends at the first `]` after the `[`). -/
def matchShowAt (l : List Char) : Option (List Char) :=
  match l with
  | '"' :: 's' :: 'h' :: 'o' :: 'w' :: '"' :: rest =>
    match rest.dropWhile isRegexSpace with
    | ':' :: l2 =>
      match l2.dropWhile isRegexSpace with
      | '[' :: l4 =>
        match l4.dropWhile (fun c => c ≠ ']') with
        | ']' :: _ => some ('[' :: l4.takeWhile (fun c => c ≠ ']') ++ [']'])
        | _ => none
      | _ => none
    | _ => none
  | _ => none

/-- Model of `re.search` for the fixed pattern: try the match at each
position, left to right, returning the first captured group. -/
def searchShow : List Char → Option (List Char)
  | [] => none
  | c :: rest =>
    match matchShowAt (c :: rest) with
    | some frag => some frag
    | none => searchShow rest

/-- JSON values as produced by `json.loads`; numbers keep their lexeme. -/
inductive Json where
  | null
  | bool (b : Bool)
  | num (lexeme : String)
  | str (s : String)
  | arr (xs : List Json)
  | obj (kvs : List (String × Json))

/-- JSON insignificant whitespace (RFC 8259: space, tab, LF, CR). -/
def isJsonWs (c : Char) : Bool :=
  c = ' ' || c = '\t' || c = '\n' || c = '\r'

/-- Skip JSON whitespace. -/
def skipJsonWs (l : List Char) : List Char :=
  l.dropWhile isJsonWs

/-- Value of a hex digit, if any. -/
def hexDigitVal (c : Char) : Option Nat :=
  if c.isDigit then some (c.toNat - '0'.toNat)
  else if 'a' ≤ c ∧ c ≤ 'f' then some (c.toNat - 'a'.toNat + 10)
  else if 'A' ≤ c ∧ c ≤ 'F' then some (c.toNat - 'A'.toNat + 10)
  else none

/-- Single-character JSON string escapes. -/
def escChar (c : Char) : Option Char :=
  match c with
  | '"' => some '"'
  | '\\' => some '\\'
  | '/' => some '/'
  | 'b' => some '\x08'
  | 'f' => some '\x0c'
  | 'n' => some '\n'
  | 'r' => some '\r'
  | 't' => some '\t'
  | _ => none

/-- Parse the body of a JSON string after the opening quote: returns the
decoded characters and the remainder after the closing quote.  Unescaped
control characters are rejected (strict `json.loads`); surrogate pairing of
`\u` escapes is out of scope. -/
def parseStringChars : List Char → Option (List Char × List Char)
  | [] => none
  | '"' :: r => some ([], r)
  | '\\' :: e :: r =>
    if e = 'u' then
      match r with
      | h1 :: h2 :: h3 :: h4 :: r2 =>
        match hexDigitVal h1, hexDigitVal h2, hexDigitVal h3, hexDigitVal h4 with
        | some v1, some v2, some v3, some v4 =>
          (parseStringChars r2).map (fun p =>
            (Char.ofNat (((v1 * 16 + v2) * 16 + v3) * 16 + v4) :: p.1, p.2))
        | _, _, _, _ => none
      | _ => none
    else
      match escChar e with
      | some c => (parseStringChars r).map (fun p => (c :: p.1, p.2))
      | none => none
  | c :: r =>
    if c.toNat < 32 then none
    else (parseStringChars r).map (fun p => (c :: p.1, p.2))

/-- Parse optional JSON fraction and exponent after the integer part,
returning the consumed lexeme characters and the remainder. -/
def parseFracExp (r : List Char) : List Char × List Char :=
  let fracStep : List Char × List Char :=
    match r with
    | '.' :: d :: ds =>
      if d.isDigit then
        (('.' :: d :: ds.takeWhile Char.isDigit), ds.dropWhile Char.isDigit)
      else ([], r)
    | _ => ([], r)
  let r2 := fracStep.2
  let expStep : List Char × List Char :=
    match r2 with
    | e :: '+' :: d :: ds =>
      if (e = 'e' ∨ e = 'E') ∧ d.isDigit then
        ((e :: '+' :: d :: ds.takeWhile Char.isDigit), ds.dropWhile Char.isDigit)
      else ([], r2)
    | e :: '-' :: d :: ds =>
      if (e = 'e' ∨ e = 'E') ∧ d.isDigit then
        ((e :: '-' :: d :: ds.takeWhile Char.isDigit), ds.dropWhile Char.isDigit)
      else ([], r2)
    | e :: d :: ds =>
      if (e = 'e' ∨ e = 'E') ∧ d.isDigit then
        ((e :: d :: ds.takeWhile Char.isDigit), ds.dropWhile Char.isDigit)
      else ([], r2)
    | _ => ([], r2)
  (fracStep.1 ++ expStep.1, expStep.2)

/-- Parse a JSON number (strict grammar: no leading zeros, `.`/`e` need
digits), returning its lexeme and the remainder. -/
def parseNumber (l : List Char) : Option (List Char × List Char) :=
  let unsignedPart : List Char → Option (List Char × List Char) := fun u =>
    match u with
    | '0' :: r => some (['0'], r)
    | c :: r =>
      if c.isDigit then some ((c :: r.takeWhile Char.isDigit), r.dropWhile Char.isDigit)
      else none
    | [] => none
  match l with
  | '-' :: r =>
    (unsignedPart r).map (fun p =>
      let fe := parseFracExp p.2
      ('-' :: p.1 ++ fe.1, fe.2))
  | _ =>
    (unsignedPart l).map (fun p =>
      let fe := parseFracExp p.2
      (p.1 ++ fe.1, fe.2))

mutual

/-- Fueled recursive-descent parser for one JSON value (model of the grammar
accepted by `json.loads`), returning the value and the unconsumed suffix. -/
def parseValue : Nat → List Char → Option (Json × List Char)
  | 0, _ => none
  | fuel + 1, l =>
    match l with
    | 'n' :: 'u' :: 'l' :: 'l' :: r => some (Json.null, r)
    | 't' :: 'r' :: 'u' :: 'e' :: r => some (Json.bool true, r)
    | 'f' :: 'a' :: 'l' :: 's' :: 'e' :: r => some (Json.bool false, r)
    | '"' :: r => (parseStringChars r).map (fun p => (Json.str (String.mk p.1), p.2))
    | '[' :: r =>
      match skipJsonWs r with
      | ']' :: r2 => some (Json.arr [], r2)
      | r1 => parseArrayItems fuel r1 []
    | '{' :: r =>
      match skipJsonWs r with
      | '}' :: r2 => some (Json.obj [], r2)
      | r1 => parseObjItems fuel r1 []
    | _ => (parseNumber l).map (fun p => (Json.num (String.mk p.1), p.2))

/-- Parse the comma-separated items of a non-empty JSON array (after `[`). -/
def parseArrayItems : Nat → List Char → List Json → Option (Json × List Char)
  | 0, _, _ => none
  | fuel + 1, l, acc =>
    match parseValue fuel (skipJsonWs l) with
    | none => none
    | some (v, r) =>
      match skipJsonWs r with
      | ',' :: r2 => parseArrayItems fuel r2 (acc ++ [v])
      | ']' :: r2 => some (Json.arr (acc ++ [v]), r2)
      | _ => none

/-- Parse the members of a non-empty JSON object (after `{`). -/
def parseObjItems : Nat → List Char → List (String × Json) → Option (Json × List Char)
  | 0, _, _ => none
  | fuel + 1, l, acc =>
    match skipJsonWs l with
    | '"' :: r =>
      match parseStringChars r with
      | none => none
      | some (kcs, r2) =>
        match skipJsonWs r2 with
        | ':' :: r3 =>
          match parseValue fuel (skipJsonWs r3) with
          | none => none
          | some (v, r4) =>
            match skipJsonWs r4 with
            | ',' :: r5 => parseObjItems fuel r5 (acc ++ [(String.mk kcs, v)])
            | '}' :: r5 => some (Json.obj (acc ++ [(String.mk kcs, v)]), r5)
            | _ => none
        | _ => none
    | _ => none

end

/-- Model of `json.loads`: parse one value with surrounding whitespace and
require the input to be fully consumed; `none` is a `JSONDecodeError`. -/
def jsonLoads (s : String) : Option Json :=
  match parseValue (s.data.length + 1) (skipJsonWs s.data) with
  | some (v, rest) => if (skipJsonWs rest).isEmpty then some v else none
  | none => none

/-- Model of `data.get("show", [])` on the parsed wrapper object. -/
def jsonGetShow (j : Json) : Json :=
  match j with
  | Json.obj kvs =>
    match kvs.find? (fun kv => kv.1 == "show") with
    | some kv => kv.2
    | none => Json.arr []
  | _ => Json.arr []

/-- The extractor's failure taxonomy.  Both raises in `_extract_show_list`
are `ValueError` in the source, with distinct messages; the constructors
follow the spec's names: `extractionError` is the "Could not find 'show' JSON
array in string." raise (no regex match), `malformedPayload` the "JSON
decoding failed: ..." raise. -/
inductive ExtractError where
  | extractionError
  | malformedPayload
deriving DecidableEq, Repr

/-- Embedding of `_extract_show_list` (`cosmos/io.py`): search the log text
for `"show"\s*:\s*(\[[^\]]*\])`, wrap the captured fragment as
`{"show": <fragment>}`, parse it as JSON, and return the value under
`"show"` (default `[]`). -/
def _extract_show_list (log_string : String) : Except ExtractError Json :=
  match searchShow log_string.data with
  | none => Except.error ExtractError.extractionError
  | some json_array_str =>
    let json_str : String := "\x7b\"show\": " ++ String.mk json_array_str ++ "\x7d"
    match jsonLoads json_str with
    | none => Except.error ExtractError.malformedPayload
    | some data => Except.ok (jsonGetShow data)

/-! ## C4: the extractor's case contract -/

/-- Counterexample for C4: the claim says `extract("\"show\": [1,2,")` raises
`MalformedPayload`; in the code the regex `"show"\s*:\s*(\[[^\]]*\])` requires
a closing `]`, so on this input no match is found and the no-match raise
(`ExtractionError`) fires instead. -/
theorem unclosed_array_not_malformed :
    _extract_show_list "\"show\": [1,2," = Except.error ExtractError.extractionError ∧
    _extract_show_list "\"show\": [1,2," ≠ Except.error ExtractError.malformedPayload := by
  have hval : _extract_show_list "\"show\": [1,2," = Except.error ExtractError.extractionError := rfl
  refine ⟨hval, fun h => ?_⟩
  have h2 := hval.symm.trans h
  rw [Except.error.injEq] at h2
  exact absurd h2 (by decide)

/-- Claim C4 as amended: the extractor's case contract: text containing
`"show": [1,2,3]` yields `[1,2,3]`; text with no match for the `show` key
followed by a bracketed fragment raises `ExtractionError`; text containing
`"show": [1,2,` with the array never closed also raises `ExtractionError`
(the regex finds no match without a closing bracket); `MalformedPayload` is
raised when a bracketed fragment is captured but is not valid JSON, as for
`"show": [1,2,]`. -/
theorem extract_show_list_cases :
    _extract_show_list "prefix \"show\": [1,2,3] suffix"
        = Except.ok (Json.arr [Json.num "1", Json.num "2", Json.num "3"]) ∧
    _extract_show_list "no show key here" = Except.error ExtractError.extractionError ∧
    _extract_show_list "\"show\": [1,2," = Except.error ExtractError.extractionError ∧
    _extract_show_list "\"show\": [1,2,]" = Except.error ExtractError.malformedPayload :=
  ⟨rfl, rfl, rfl, rfl⟩

/-! ## `log_to_xcom` and C5 -/

/-- The local filesystem as seen by `log_to_xcom`: `none` means the path does
not exist (`log_path.exists()` is false); `some (Except.ok c)` a readable file
with content `c`; `some (Except.error m)` a file whose `open`/`read` raises an
exception rendering as `m` (the `except Exception` branch of the source). -/
abbrev FileSys := String → Option (Except String String)

/-- Embedding of `log_to_xcom` (`cosmos/io.py`): read
`Path(project_dir) / log_relative_path`, substituting
`"Log file not found: {log_path}"` when the file is absent and
`"Error reading log file {log_path}: {error}"` when reading raises, then
extract the `show` list and push it under `xcom_key` (the returned pair
models `context["ti"].xcom_push(key=xcom_key, value=json_content)`). -/
def log_to_xcom (fs : FileSys) (project_dir : String) (log_relative_path : String)
    (xcom_key : String) : Except ExtractError (String × Json) :=
  let log_path := pathlibJoin project_dir log_relative_path
  let log_content :=
    match fs log_path with
    | some (Except.ok c) => c
    | some (Except.error err) => "Error reading log file " ++ log_path ++ ": " ++ err
    | none => "Log file not found: " ++ log_path
  (_extract_show_list log_content).map (fun json_content => (xcom_key, json_content))

/-- A filesystem on which the log file exists but reading it raises, and the
exception's rendering happens to contain a `show` array. -/
def fsBad : FileSys := fun p =>
  if p = "p/logs/dbt.log" then some (Except.error "boom \"show\": [7] end") else none

/-- Counterexample for C5: the claim says a missing log file is the *sole*
soft-failure and every other failure propagates; but the source's
`except Exception` branch also swallows a failing read of an existing file,
substituting a diagnostic string.  Concretely: the log file exists and reading
it raises, yet `log_to_xcom` completes without propagating any failure (the
diagnostic text contains a `show` array, so even extraction succeeds). -/
theorem read_failure_swallowed :
    fsBad "p/logs/dbt.log" = some (Except.error "boom \"show\": [7] end") ∧
    log_to_xcom fsBad "p" "logs/dbt.log" "k" = Except.ok ("k", Json.arr [Json.num "7"]) :=
  ⟨rfl, rfl⟩

/-- Claim C5 as amended: a missing log file and a failing read of an existing log
file are both soft-failures — each substitutes a diagnostic placeholder string
as the log content instead of raising for that condition — while a failure of
extraction on the obtained content propagates to the caller. -/
theorem log_to_xcom_soft_failures (fs : FileSys) (pd lp key : String) :
    (fs (pathlibJoin pd lp) = none →
      log_to_xcom fs pd lp key =
        (_extract_show_list ("Log file not found: " ++ pathlibJoin pd lp)).map
          (fun j => (key, j))) ∧
    (∀ m, fs (pathlibJoin pd lp) = some (Except.error m) →
      log_to_xcom fs pd lp key =
        (_extract_show_list ("Error reading log file " ++ pathlibJoin pd lp ++ ": " ++ m)).map
          (fun j => (key, j))) ∧
    (∀ c e, fs (pathlibJoin pd lp) = some (Except.ok c) →
      _extract_show_list c = Except.error e →
      log_to_xcom fs pd lp key = Except.error e) := by
  refine ⟨?_, ?_, ?_⟩
  · intro h
    simp only [log_to_xcom]
    rw [h]
  · intro m h
    simp only [log_to_xcom]
    rw [h]
  · intro c e hfs hext
    simp only [log_to_xcom]
    rw [hfs, hext]
    rfl

/-- Witness for C5 (amended): on an empty filesystem the log file is missing,
the placeholder content carries no `show` array, and the propagated outcome is
the extraction failure on the placeholder — not a missing-file error. -/
theorem log_to_xcom_soft_failures_witness :
    log_to_xcom (fun _ => none) "p" "logs/dbt.log" "k"
      = Except.error ExtractError.extractionError := by
  have h := (log_to_xcom_soft_failures (fun _ => none) "p" "logs/dbt.log" "k").1 rfl
  exact h.trans rfl

end Cosmos
